import Mathlib

/-!
# Verification of the US-Job-Market-Intel canonicalization core

This file gives a shallow embedding, in Lean 4, of the canonicalization and
identity-resolution subsystem of the `jobintel` pipeline:

* `src/jobintel/utils/hashing.py` (identity-key generators over SHA-256),
* `src/jobintel/utils/locations_us.py` (US location classifier),
* `src/jobintel/utils/text.py` (text cleaning),
* `src/jobintel/pipeline/transform.py` (the canonicalizer),
* `src/jobintel/pipeline/dedupe.py` (within-run deduplicator),
* `src/jobintel/pipeline/latest.py` (cross-run latest-snapshot merger),

and proves or refutes the specification claims about them.

Modelling conventions:

* Python `str` is modelled by `String`; `str.lower`, `str.upper`, `str.strip`
  are modelled on the ASCII range (the repository only processes ASCII-range
  company names, ids, titles and location strings in the claims at issue).
* Python `date` values are modelled as natural numbers under the monotone
  encoding `y * 10000 + m * 100 + d`, so that the calendar order used by
  `pandas.to_datetime`-based sorting coincides with the order on `Nat`.
* `datetime.now()` is modelled as an explicit `now : Nat` argument threaded
  into the transform.
* raising an exception is modelled with `Except String`; a caught exception
  carries the message text that `str(e)` would produce.
-/

/-! ## ASCII string primitives (models of Python `str` methods) -/

/-- Characters stripped by Python `str.strip()` (ASCII whitespace:
space, tab, newline, carriage return, vertical tab, form feed). -/
def isPySpace (c : Char) : Bool :=
  c.toNat == 32 || c.toNat == 9 || c.toNat == 10 ||
  c.toNat == 13 || c.toNat == 11 || c.toNat == 12

/-- Model of Python `str.lower()` on the ASCII range: `Char.toLower`
maps `A`..`Z` to `a`..`z` and leaves every other character unchanged,
exactly as CPython does for ASCII input. -/
def pyLower (s : String) : String :=
  ⟨s.data.map Char.toLower⟩

/-- Model of Python `str.upper()` on the ASCII range. -/
def pyUpper (s : String) : String :=
  ⟨s.data.map Char.toUpper⟩

/-- Trailing-whitespace trim on a character list. -/
def trimEndData (l : List Char) : List Char :=
  (l.reverse.dropWhile isPySpace).reverse

/-- Model of Python `str.strip()`: remove leading and trailing whitespace. -/
def pyStrip (s : String) : String :=
  ⟨trimEndData (s.data.dropWhile isPySpace)⟩

/-- `s[:n]` on a Python string. -/
def strTake (n : Nat) (s : String) : String :=
  ⟨s.data.take n⟩

/-- Does `needle` occur at the start of `hay`? (list-of-chars level). -/
def startsWithData : List Char → List Char → Bool
  | [], _ => true
  | _ :: _, [] => false
  | n :: ns, h :: hs => n == h && startsWithData ns hs

/-- Python `needle in hay` substring test, on character lists. -/
def containsSub (needle : List Char) : List Char → Bool
  | [] => startsWithData needle []
  | h :: hs => startsWithData needle (h :: hs) || containsSub needle hs

/-- Python `needle in hay` substring test on strings. -/
def pyContains (hay needle : String) : Bool :=
  containsSub needle.data hay.data

/-! ## SHA-256 (model of `hashlib.sha256(...).hexdigest()`)

`src/jobintel/utils/hashing.py` hashes UTF-8 encoded strings with SHA-256 and
uses hex digests.  The implementation below is the standard FIPS 180-4
algorithm over `Nat` with explicit reduction modulo `2^32`. -/

/-- Reduce modulo `2^32`. -/
def w32 (n : Nat) : Nat := n % 4294967296

/-- 32-bit right rotation (input assumed `< 2^32`). -/
def rotr (k n : Nat) : Nat :=
  w32 (Nat.lor (Nat.shiftRight n k) (Nat.shiftLeft n (32 - k)))

/-- UTF-8 encoding of one character (byte values as `Nat`). -/
def utf8Char (c : Char) : List Nat :=
  let n := c.toNat
  if n < 0x80 then [n]
  else if n < 0x800 then
    [0xC0 ||| (n >>> 6), 0x80 ||| (n &&& 0x3F)]
  else if n < 0x10000 then
    [0xE0 ||| (n >>> 12), 0x80 ||| ((n >>> 6) &&& 0x3F), 0x80 ||| (n &&& 0x3F)]
  else
    [0xF0 ||| (n >>> 18), 0x80 ||| ((n >>> 12) &&& 0x3F),
     0x80 ||| ((n >>> 6) &&& 0x3F), 0x80 ||| (n &&& 0x3F)]

/-- UTF-8 byte sequence of a string. -/
def utf8Bytes (s : String) : List Nat :=
  (s.data.map utf8Char).flatten

/-- Big-endian bytes of a 64-bit value. -/
def be64 (n : Nat) : List Nat :=
  [w32 (n >>> 56) % 256, (n >>> 48) % 256, (n >>> 40) % 256, (n >>> 32) % 256,
   (n >>> 24) % 256, (n >>> 16) % 256, (n >>> 8) % 256, n % 256]

/-- SHA-256 message padding: append `0x80`, zeros, and the 64-bit big-endian
bit length, reaching a multiple of 64 bytes. -/
def sha256Pad (msg : List Nat) : List Nat :=
  let len := msg.length
  let zeros := (120 - (len + 1) % 64) % 64
  msg ++ [0x80] ++ List.replicate zeros 0 ++ be64 (len * 8)

/-- Split a byte list into successive chunks of `n` (fuel-based recursion). -/
def chunksAux (n : Nat) : Nat → List Nat → List (List Nat)
  | 0, _ => []
  | _, [] => []
  | fuel + 1, l => l.take n :: chunksAux n fuel (l.drop n)

/-- Split a byte list into successive chunks of `n`. -/
def chunks (n : Nat) (l : List Nat) : List (List Nat) :=
  chunksAux n (l.length + 1) l

/-- Combine four bytes into one big-endian 32-bit word. -/
def word32OfBytes (b : List Nat) : Nat :=
  (b.getD 0 0) * 16777216 + (b.getD 1 0) * 65536 + (b.getD 2 0) * 256 + b.getD 3 0

/-- The 16 initial schedule words of a 64-byte block. -/
def blockWords (block : List Nat) : List Nat :=
  (chunks 4 block).map word32OfBytes

/-- SHA-256 round constants (FIPS 180-4 §4.2.2). -/
def sha256K : List Nat :=
  [1116352408, 1899447441, 3049323471, 3921009573, 961987163,
   1508970993, 2453635748, 2870763221, 3624381080, 310598401,
   607225278, 1426881987, 1925078388, 2162078206, 2614888103,
   3248222580, 3835390401, 4022224774, 264347078, 604807628,
   770255983, 1249150122, 1555081692, 1996064986, 2554220882,
   2821834349, 2952996808, 3210313671, 3336571891, 3584528711,
   113926993, 338241895, 666307205, 773529912, 1294757372,
   1396182291, 1695183700, 1986661051, 2177026350, 2456956037,
   2730485921, 2820302411, 3259730800, 3345764771, 3516065817,
   3600352804, 4094571909, 275423344, 430227734, 506948616,
   659060556, 883997877, 958139571, 1322822218, 1537002063,
   1747873779, 1955562222, 2024104815, 2227730452, 2361852424,
   2428436474, 2756734187, 3204031479, 3329325298]

/-- SHA-256 initial hash value (FIPS 180-4 §5.3.3). -/
def sha256H0 : List Nat :=
  [1779033703, 3144134277, 1013904242, 2773480762,
   1359893119, 2600822924, 528734635, 1541459225]

/-- Small sigma-0: `rotr 7 x ^^ rotr 18 x ^^ x >>> 3`. -/
def ssig0 (x : Nat) : Nat := (rotr 7 x) ^^^ (rotr 18 x) ^^^ (x >>> 3)

/-- Small sigma-1: `rotr 17 x ^^ rotr 19 x ^^ x >>> 10`. -/
def ssig1 (x : Nat) : Nat := (rotr 17 x) ^^^ (rotr 19 x) ^^^ (x >>> 10)

/-- Big sigma-0: `rotr 2 x ^^ rotr 13 x ^^ rotr 22 x`. -/
def bsig0 (x : Nat) : Nat := (rotr 2 x) ^^^ (rotr 13 x) ^^^ (rotr 22 x)

/-- Big sigma-1: `rotr 6 x ^^ rotr 11 x ^^ rotr 25 x`. -/
def bsig1 (x : Nat) : Nat := (rotr 6 x) ^^^ (rotr 11 x) ^^^ (rotr 25 x)

/-- Choice function `ch e f g` (the complement of `e` is taken within 32
bits). -/
def shaCh (e f g : Nat) : Nat :=
  Nat.xor (Nat.land e f) (Nat.land (4294967295 - e) g)

/-- Majority function `maj a b c`. -/
def shaMaj (a b c : Nat) : Nat :=
  Nat.xor (Nat.xor (Nat.land a b) (Nat.land a c)) (Nat.land b c)

/-- One extension step of the message schedule: append word `w[i]` for the
next index `i ≥ 16`. -/
def schedStep (w : List Nat) : List Nat :=
  let n := w.length
  w ++ [w32 (w.getD (n - 16) 0 + ssig0 (w.getD (n - 15) 0) +
             w.getD (n - 7) 0 + ssig1 (w.getD (n - 2) 0))]

/-- Extend the message schedule by `k` further words. -/
def schedExtend (w : List Nat) : Nat → List Nat
  | 0 => w
  | k + 1 => schedExtend (schedStep w) k

/-- One SHA-256 compression round; the state is the 8-word working vector. -/
def sha256Round (st : List Nat) (kw : Nat × Nat) : List Nat :=
  match st with
  | [a, b, c, d, e, f, g, h] =>
      let t1 := w32 (h + bsig1 e + shaCh e f g + kw.1 + kw.2)
      let t2 := w32 (bsig0 a + shaMaj a b c)
      [w32 (t1 + t2), a, b, c, w32 (d + t1), e, f, g]
  | other => other

/-- Process one 64-byte block. -/
def sha256Block (hv : List Nat) (block : List Nat) : List Nat :=
  let ws := schedExtend (blockWords block) 48
  let st := (sha256K.zip ws).foldl sha256Round hv
  hv.zipWith (fun x y => w32 (x + y)) st

/-- SHA-256 of a string (UTF-8 encoded), as eight 32-bit words. -/
def sha256Words (s : String) : List Nat :=
  ((chunks 64 (sha256Pad (utf8Bytes s)))).foldl sha256Block sha256H0

/-- One lowercase hex digit. -/
def hexDigit (n : Nat) : Char :=
  if n < 10 then Char.ofNat (48 + n) else Char.ofNat (87 + n)

/-- Eight lowercase hex digits of a 32-bit word, most significant first. -/
def hex8 (n : Nat) : List Char :=
  [hexDigit ((n >>> 28) % 16), hexDigit ((n >>> 24) % 16),
   hexDigit ((n >>> 20) % 16), hexDigit ((n >>> 16) % 16),
   hexDigit ((n >>> 12) % 16), hexDigit ((n >>> 8) % 16),
   hexDigit ((n >>> 4) % 16), hexDigit (n % 16)]

/-- `hashlib.sha256(s.encode("utf-8")).hexdigest()`. -/
def sha256Hex (s : String) : String :=
  ⟨((sha256Words s).map hex8).flatten⟩

/-! ## `src/jobintel/utils/hashing.py` -/

/-- `generate_hash` on a single string argument. -/
def generate_hash (s : String) : String := sha256Hex s

/-- `generate_hash` on a list argument: the components are joined with `"|"`
before hashing. -/
def generate_hash_list (l : List String) : String :=
  generate_hash (String.intercalate "|" l)

/-- `generate_job_key`: lowercase+strip company and title, strip (but do not
lowercase) the source job id, and compose
`{source}_{hash(company)[:8]}_{hash([id, title])[:8]}`. -/
def generate_job_key (source company_name source_job_id title : String) : String :=
  let company_norm := pyStrip (pyLower company_name)
  let job_id_norm := pyStrip source_job_id
  let title_norm := pyStrip (pyLower title)
  let company_hash := strTake 8 (generate_hash company_norm)
  let job_hash := strTake 8 (generate_hash_list [job_id_norm, title_norm])
  source ++ "_" ++ company_hash ++ "_" ++ job_hash

/-- `generate_company_id`: `domain` is used only when truthy (present and
non-empty), in which case it is joined to the name with `"|"`; the result is
the first 16 hex characters of the digest. -/
def generate_company_id (company_name : String) (domain : Option String) : String :=
  match domain with
  | some d =>
      if d == "" then strTake 16 (generate_hash (pyStrip (pyLower company_name)))
      else strTake 16 (generate_hash (pyStrip (pyLower company_name) ++ "|" ++ pyStrip (pyLower d)))
  | none => strTake 16 (generate_hash (pyStrip (pyLower company_name)))

set_option maxRecDepth 100000

/-- Sanity check of the SHA-256 model against the FIPS 180-4 test vector
for the empty message. -/
theorem sha256Hex_empty :
    sha256Hex "" = "e3b0c44298fc1c149afbf4c8996fb92427ae41e4649b934ca495991b7852b855" := by
  decide

/-- Sanity check of the SHA-256 model against the FIPS 180-4 test vector
for `"abc"`. -/
theorem sha256Hex_abc :
    sha256Hex "abc" = "ba7816bf8f01cfea414140de5dae2223b00361a396177a9cb410ff61f20015ad" := by
  decide

/-! ## Normalization lemmas for the identity-key generators -/

/-- `Char.ofNat` round-trips on codepoints below the surrogate range. -/
theorem toNat_ofNat_of_lt {n : Nat} (h : n < 55296) : (Char.ofNat n).toNat = n := by
  have hv : n.isValidChar := Or.inl h
  rw [Char.ofNat, dif_pos hv]
  rfl

/-- Lowercasing an ASCII uppercase letter adds 32 to its codepoint. -/
theorem toNat_toLower_of_upper {c : Char} (h : 65 ≤ c.toNat ∧ c.toNat ≤ 90) :
    (Char.toLower c).toNat = c.toNat + 32 := by
  rw [Char.toLower]
  simp only [ge_iff_le]
  rw [if_pos h]
  exact toNat_ofNat_of_lt (by omega)

/-- Lowercasing any character that is not an ASCII uppercase letter is the
identity. -/
theorem toLower_eq_self {c : Char} (h : ¬(65 ≤ c.toNat ∧ c.toNat ≤ 90)) :
    Char.toLower c = c := by
  rw [Char.toLower]
  simp only [ge_iff_le]
  rw [if_neg h]

/-- `Char.toLower` is idempotent. -/
theorem toLower_toLower (c : Char) :
    Char.toLower (Char.toLower c) = Char.toLower c := by
  by_cases h : 65 ≤ c.toNat ∧ c.toNat ≤ 90
  · have h2 := toNat_toLower_of_upper h
    apply toLower_eq_self
    rw [h2]
    omega
  · rw [toLower_eq_self h]
    exact toLower_eq_self h

/-- Lowercasing does not change whether a character is Python whitespace. -/
theorem isPySpace_toLower (c : Char) :
    isPySpace (Char.toLower c) = isPySpace c := by
  by_cases h : 65 ≤ c.toNat ∧ c.toNat ≤ 90
  · have h2 := toNat_toLower_of_upper h
    simp only [isPySpace, h2]
    have hfalse : ∀ m, 65 ≤ m → m ≤ 122 →
        ((m == 32 || m == 9 || m == 10 || m == 13 || m == 11 || m == 12) = false) := by
      intro m h1 h2
      simp only [Bool.or_eq_false_iff, beq_eq_false_iff_ne, ne_eq]
      omega
    rw [hfalse _ (by omega) (by omega), hfalse _ (by omega) (by omega)]
  · rw [toLower_eq_self h]

/-- `str.lower` is idempotent. -/
theorem pyLower_pyLower (s : String) : pyLower (pyLower s) = pyLower s := by
  have hc : Char.toLower ∘ Char.toLower = Char.toLower := funext toLower_toLower
  simp [pyLower, List.map_map, hc]

/-- Trailing trim commutes with lowercasing. -/
theorem trimEnd_map_toLower (l : List Char) :
    trimEndData (l.map Char.toLower) = (trimEndData l).map Char.toLower := by
  have hp : (isPySpace ∘ Char.toLower) = isPySpace := funext isPySpace_toLower
  simp only [trimEndData, ← List.map_reverse, List.dropWhile_map, hp]

/-- `str.lower` and `str.strip` commute. -/
theorem pyLower_pyStrip (s : String) : pyLower (pyStrip s) = pyStrip (pyLower s) := by
  have hp : (isPySpace ∘ Char.toLower) = isPySpace := funext isPySpace_toLower
  simp only [pyLower, pyStrip, List.dropWhile_map, hp, trimEnd_map_toLower]

/-- `dropWhile` is idempotent. -/
theorem dropWhile_dropWhile (p : α → Bool) (l : List α) :
    (l.dropWhile p).dropWhile p = l.dropWhile p := by
  induction l with
  | nil => rfl
  | cons c l ih =>
      by_cases h : p c
      · simp [List.dropWhile_cons, h, ih]
      · simp [List.dropWhile_cons, h]

/-- If `dropWhile p` fixes `A ++ u`, it fixes the shorter list `A`. -/
theorem dropWhile_eq_self_of_append {p : α → Bool} {A u : List α}
    (h : (A ++ u).dropWhile p = A ++ u) : A.dropWhile p = A := by
  cases A with
  | nil => rfl
  | cons c A' =>
      by_cases hc : p c
      · exfalso
        rw [List.cons_append, List.dropWhile_cons, if_pos hc] at h
        have hlen : ((A' ++ u).dropWhile p).length ≤ (A' ++ u).length :=
          (List.dropWhile_suffix p).sublist.length_le
        rw [h] at hlen
        simp at hlen
      · rw [List.dropWhile_cons, if_neg hc]

/-- `str.strip` is idempotent. -/
theorem pyStrip_pyStrip (s : String) : pyStrip (pyStrip s) = pyStrip s := by
  rcases s with ⟨l⟩
  show pyStrip ⟨trimEndData (l.dropWhile isPySpace)⟩ = ⟨trimEndData (l.dropWhile isPySpace)⟩
  rw [pyStrip]
  set M := l.dropWhile isPySpace with hM
  have hMfix : M.dropWhile isPySpace = M := by rw [hM]; exact dropWhile_dropWhile _ _
  -- the trailing trim of M is a front segment of M, so it is still left-trimmed
  obtain ⟨u, hu⟩ := List.dropWhile_suffix (l := M.reverse) isPySpace
  have hfront : M = trimEndData M ++ u.reverse := by
    have h2 := congrArg List.reverse hu
    simpa [trimEndData] using h2.symm
  have hfix : (trimEndData M).dropWhile isPySpace = trimEndData M := by
    apply dropWhile_eq_self_of_append (u := u.reverse)
    rw [← hfront]
    exact hMfix
  rw [hfix]
  show (⟨trimEndData (trimEndData M)⟩ : String) = ⟨trimEndData M⟩
  have : trimEndData (trimEndData M) = trimEndData M := by
    simp [trimEndData, List.reverse_reverse, dropWhile_dropWhile]
  rw [this]

/-- The composite normalization actually applied to company names and titles. -/
theorem norm_idem (s : String) :
    pyStrip (pyLower (pyStrip (pyLower s))) = pyStrip (pyLower s) := by
  rw [pyLower_pyStrip (pyLower s), pyLower_pyLower, pyStrip_pyStrip]

/-- C2 counterexample: the claim's equation fails on the code.  The source job
id is only stripped, never lowercased, so lowercasing the id changes the job
key; and a whitespace-only domain is truthy before normalization but falsy
after, so the companyId equation also fails. -/
theorem key_normalization_refuted :
    generate_job_key "greenhouse" "Acme" "AbC" "Engineer"
        ≠ generate_job_key "greenhouse" (pyStrip (pyLower "Acme"))
            (pyStrip (pyLower "AbC")) (pyStrip (pyLower "Engineer"))
    ∧ generate_company_id "Acme" (some " ")
        ≠ generate_company_id (pyStrip (pyLower "Acme")) (some (pyStrip (pyLower " "))) := by
  constructor
  · decide
  · decide

/-- C2 (amended): the identity-key generators are invariant under the
normalization the code actually performs — lowercase+trim on company name and
title, trim only on the source job id, and lowercase+trim on name and
(non-degenerate) domain for companyId. -/
theorem key_normalization_amended :
    (∀ src c i t : String, generate_job_key src c i t
        = generate_job_key src (pyStrip (pyLower c)) (pyStrip i) (pyStrip (pyLower t)))
    ∧ (∀ n : String, generate_company_id n none
        = generate_company_id (pyStrip (pyLower n)) none)
    ∧ (∀ n d : String, pyStrip (pyLower d) ≠ "" →
        generate_company_id n (some d)
          = generate_company_id (pyStrip (pyLower n)) (some (pyStrip (pyLower d)))) := by
  refine ⟨fun src c i t => ?_, fun n => ?_, fun n d hd => ?_⟩
  · simp only [generate_job_key, norm_idem, pyStrip_pyStrip]
  · simp only [generate_company_id, norm_idem]
  · have hd' : d ≠ "" := by
      intro h
      apply hd
      rw [h]
      rfl
    have hbeq : (d == "") = false := by
      simp [hd']
    have hbeq2 : (pyStrip (pyLower d) == "") = false := by
      simp [hd]
    simp only [generate_company_id, hbeq, hbeq2, if_false, norm_idem]

/-- Witness for `key_normalization_amended` at concrete inputs. -/
theorem key_normalization_amended_witness :
    pyStrip (pyLower "Example.COM") ≠ "" ∧
    generate_company_id "Acme" (some "Example.COM")
      = generate_company_id (pyStrip (pyLower "Acme")) (some (pyStrip (pyLower "Example.COM"))) :=
  ⟨by decide, key_normalization_amended.2.2 "Acme" "Example.COM" (by decide)⟩

/-! ## `src/jobintel/utils/locations_us.py` -/

/-- `US_STATES` in source (insertion) order: `(abbrev, full name)`. -/
def usStates : List (String × String) :=
  [("AL", "Alabama"), ("AK", "Alaska"), ("AZ", "Arizona"), ("AR", "Arkansas"),
   ("CA", "California"), ("CO", "Colorado"), ("CT", "Connecticut"),
   ("DE", "Delaware"), ("FL", "Florida"), ("GA", "Georgia"), ("HI", "Hawaii"),
   ("ID", "Idaho"), ("IL", "Illinois"), ("IN", "Indiana"), ("IA", "Iowa"),
   ("KS", "Kansas"), ("KY", "Kentucky"), ("LA", "Louisiana"), ("ME", "Maine"),
   ("MD", "Maryland"), ("MA", "Massachusetts"), ("MI", "Michigan"),
   ("MN", "Minnesota"), ("MS", "Mississippi"), ("MO", "Missouri"),
   ("MT", "Montana"), ("NE", "Nebraska"), ("NV", "Nevada"),
   ("NH", "New Hampshire"), ("NJ", "New Jersey"), ("NM", "New Mexico"),
   ("NY", "New York"), ("NC", "North Carolina"), ("ND", "North Dakota"),
   ("OH", "Ohio"), ("OK", "Oklahoma"), ("OR", "Oregon"), ("PA", "Pennsylvania"),
   ("RI", "Rhode Island"), ("SC", "South Carolina"), ("SD", "South Dakota"),
   ("TN", "Tennessee"), ("TX", "Texas"), ("UT", "Utah"), ("VT", "Vermont"),
   ("VA", "Virginia"), ("WA", "Washington"), ("WV", "West Virginia"),
   ("WI", "Wisconsin"), ("WY", "Wyoming"), ("DC", "District of Columbia")]

/-- Membership test in the `US_STATES` mapping keys. -/
def isUSStateCode (s : String) : Bool :=
  usStates.any (fun p => p.1 == s)

/-- `STATE_NAMES_TO_ABBREV`: lowercased full name to abbrev, in source order
(Python dicts preserve insertion order). -/
def stateNamesToAbbrev : List (String × String) :=
  usStates.map (fun p => (pyLower p.2, p.1))

/-- `REMOTE_KEYWORDS`. -/
def remoteKeywords : List String :=
  ["remote", "work from home", "wfh", "anywhere", "distributed", "virtual"]

/-- The float literal `0.9` as an exact rational. -/
def conf09 : Rat := ⟨9, 10, by decide, by decide⟩

/-- The float literal `0.7` as an exact rational. -/
def conf07 : Rat := ⟨7, 10, by decide, by decide⟩

/-- The float literal `0.3` as an exact rational. -/
def conf03 : Rat := ⟨3, 10, by decide, by decide⟩

/-- The `LocationParse` dataclass; `confidence` (a Python float that is only
ever assigned one of the literals 0.0 / 0.3 / 0.7 / 0.9 and compared with
`>= 0.7`) is modelled as a rational. -/
structure LocationParse where
  city : Option String := none
  state : Option String := none
  postal_code : Option String := none
  is_remote : Bool := false
  is_us : Bool := false
  confidence : Rat := 0
deriving DecidableEq

/-- `is_remote`: case-insensitive substring match against the keyword set. -/
def is_remote (location_text : String) : Bool :=
  if location_text == "" then false
  else remoteKeywords.any (fun k => pyContains (pyLower location_text) k)

/-- Model of the `\w` character class on the ASCII range. -/
def isWordChar (c : Char) : Bool := c.isAlpha || c.isDigit || c == '_'

/-- `[A-Z]`. -/
def isUpperAZ (c : Char) : Bool := 65 ≤ c.toNat && c.toNat ≤ 90

/-- Are there `cnt` consecutive `[0-9]` digits at position `i`? -/
def digitsAt (l : List Char) (i cnt : Nat) : Bool :=
  let seg := (l.drop i).take cnt
  seg.length == cnt && seg.all Char.isDigit

/-- Match of the suffix `(?:\s*,|\s*$)` of the state-token regex at position
`k`; returns the match end.  The alternation tries the comma branch first;
since `,` is not whitespace only the maximal `\s*` run can precede it, and the
`$`-before-final-newline case is subsumed because `\n` is whitespace. -/
def tailCommaEnd (l : List Char) (k : Nat) : Option Nat :=
  let w := ((l.drop k).takeWhile isPySpace).length
  if k + w < l.length then
    if l.getD (k + w) ' ' == ',' then some (k + w + 1) else none
  else some l.length

/-- Match of `\b([A-Z]{2})\b(?:\s+\d{5})?(?:\s*,|\s*$)` at start position `i`
(the pattern of `extract_state_code`, applied to the uppercased text);
returns the captured group and the match end.  The optional `\s+\d{5}` group
is attempted greedily first; since whitespace and digits are disjoint, only
the maximal whitespace run can feed `\d{5}`. -/
def matchStateAt (l : List Char) (i : Nat) : Option (String × Nat) :=
  if i + 2 ≤ l.length
      && isUpperAZ (l.getD i ' ') && isUpperAZ (l.getD (i + 1) ' ')
      && (i == 0 || !isWordChar (l.getD (i - 1) ' '))
      && (i + 2 == l.length || !isWordChar (l.getD (i + 2) ' ')) then
    let j := i + 2
    let w := ((l.drop j).takeWhile isPySpace).length
    let grp : String := ⟨[l.getD i ' ', l.getD (i + 1) ' ']⟩
    if w ≥ 1 && digitsAt l (j + w) 5 then
      match tailCommaEnd l (j + w + 5) with
      | some e => some (grp, e)
      | none =>
          match tailCommaEnd l j with
          | some e => some (grp, e)
          | none => none
    else
      match tailCommaEnd l j with
      | some e => some (grp, e)
      | none => none
  else none

/-- `re.findall` scan for the state-token pattern: left to right,
non-overlapping, resuming at each match end. -/
def scanStates : Nat → List Char → Nat → List String
  | 0, _, _ => []
  | fuel + 1, l, i =>
      if i ≥ l.length then []
      else
        match matchStateAt l i with
        | some (g, e) => g :: scanStates fuel l (if i < e then e else i + 1)
        | none => scanStates fuel l (i + 1)

/-- All groups found by `re.findall` for the state-token pattern. -/
def stateTokenMatches (l : List Char) : List String :=
  scanStates (l.length + 1) l 0

/-- `extract_state_code`: first two-letter match that is a recognized state
code, else first full state name occurring as a substring (in dict order). -/
def extract_state_code (text : String) : Option String :=
  match (stateTokenMatches (pyUpper text).data).find? isUSStateCode with
  | some m => some m
  | none =>
      ((stateNamesToAbbrev).find? (fun p => pyContains (pyLower text) p.1)).map (·.2)

/-- Does `^(.+?),\s*{code}\b` (IGNORECASE) match with the comma at position
`p`?  `.` does not cross newlines; the code's letters are not whitespace, so
only the maximal `\s*` run can precede them. -/
def cityMatchAt (l : List Char) (code : List Char) (p : Nat) : Bool :=
  1 ≤ p && p < l.length && l.getD p ' ' == ','
    && (l.take p).all (fun c => !(c == '\n'))
    && (let w := ((l.drop (p + 1)).takeWhile isPySpace).length
        p + 3 + w ≤ l.length
        && Char.toLower (l.getD (p + 1 + w) ' ') == Char.toLower (code.getD 0 ' ')
        && Char.toLower (l.getD (p + 2 + w) ' ') == Char.toLower (code.getD 1 ' ')
        && (p + 3 + w == l.length || !isWordChar (l.getD (p + 3 + w) ' ')))

/-- The non-greedy `(.+?)` takes the shortest prefix whose continuation
matches: the first comma position satisfying `cityMatchAt`. -/
def firstCityComma (l code : List Char) : Option Nat :=
  (List.range l.length).find? (cityMatchAt l code)

/-- `re.sub(r"^(Greater|Metro)\s+", "", city, IGNORECASE)`: remove a leading
qualifier together with the whitespace run after it.  The alternation tries
`Greater` first; if `\s+` then fails the other alternative cannot start at
the same position, so the text is unchanged. -/
def stripCityQualifier (city : List Char) : List Char :=
  if startsWithData "greater".data (city.map Char.toLower) then
    let rest := city.drop 7
    let w := (rest.takeWhile isPySpace).length
    if w ≥ 1 then rest.drop w else city
  else if startsWithData "metro".data (city.map Char.toLower) then
    let rest := city.drop 5
    let w := (rest.takeWhile isPySpace).length
    if w ≥ 1 then rest.drop w else city
  else city

/-- Fallback branch of `extract_city`: the part before the first comma, if
non-empty and not itself a state code. -/
def cityFallback (l : List Char) : Option String :=
  let first := l.takeWhile (fun c => !(c == ','))
  let city := trimEndData (first.dropWhile isPySpace)
  if city.isEmpty then none
  else if isUSStateCode (pyUpper ⟨city⟩) then none
  else some ⟨city⟩

/-- `extract_city`. -/
def extract_city (text : String) (state_code : Option String) : Option String :=
  let l := text.data
  match state_code with
  | some code =>
      match firstCityComma l code.data with
      | some p =>
          let city := trimEndData ((l.take p).dropWhile isPySpace)
          some ⟨stripCityQualifier city⟩
      | none => cityFallback l
  | none => cityFallback l

/-- `extract_postal_code`: leftmost `\b(\d{5})\b` match. -/
def extract_postal_code (text : String) : Option String :=
  let l := text.data
  match (List.range (l.length + 1)).find? (fun q =>
      (q == 0 || !isWordChar (l.getD (q - 1) ' ')) && digitsAt l q 5
        && (q + 5 == l.length || !isWordChar (l.getD (q + 5) ' '))) with
  | some q => some ⟨(l.drop q).take 5⟩
  | none => none

/-- `parse_us_location`. -/
def parse_us_location (location_text : String) (strict : Bool) : LocationParse :=
  if location_text == "" then {}
  else
    let text := pyStrip location_text
    let isRem := is_remote text
    match extract_state_code text with
    | some code =>
        { city := extract_city text (some code)
          state := some code
          postal_code := extract_postal_code text
          is_remote := isRem
          is_us := true
          confidence := conf09 }
    | none =>
        if pyContains (pyLower text) "united states" || pyContains (pyLower text) "usa"
            || pyContains (pyLower text) "u.s." then
          { is_remote := isRem, is_us := true, confidence := conf07 }
        else if strict then
          { is_remote := isRem, is_us := false, confidence := 0 }
        else
          { is_remote := isRem, is_us := true, confidence := conf03 }

/-- `validate_us_location`. -/
def validate_us_location (location_text : String) (strict : Bool) : Bool :=
  let parsed := parse_us_location location_text strict
  parsed.is_us && (!strict || decide (parsed.confidence ≥ conf07))

example : extract_state_code "San Francisco, CA" = some "CA" := by decide
example : extract_state_code "New York, NY 10001" = some "NY" := by decide
example : extract_state_code "Boston, Massachusetts" = some "MA" := by decide
example : extract_state_code "London, UK" = none := by decide
example : is_remote "San Francisco, CA (Remote)" = true := by decide
example : is_remote "San Francisco, CA" = false := by decide
example : validate_us_location "San Francisco, CA" true = true := by decide
example : validate_us_location "London, UK" true = false := by decide

/-- Helper: the generic branch analysis of `parse_us_location` on non-empty
input with no recognized state code. -/
theorem parse_no_state (t : String) (ht : t ≠ "")
    (hsc : extract_state_code (pyStrip t) = none) (strict : Bool) :
    parse_us_location t strict =
      (if pyContains (pyLower (pyStrip t)) "united states"
          || pyContains (pyLower (pyStrip t)) "usa"
          || pyContains (pyLower (pyStrip t)) "u.s." then
        { is_remote := is_remote (pyStrip t), is_us := true, confidence := conf07 }
      else if strict then
        { is_remote := is_remote (pyStrip t), is_us := false, confidence := 0 }
      else
        { is_remote := is_remote (pyStrip t), is_us := true, confidence := conf03 }) := by
  have htb : (t == "") = false := by simp [ht]
  rw [parse_us_location, htb]
  simp only [Bool.false_eq_true, if_false, hsc]

/-- C6: a location string with no recognized state token, no full state name
and no explicit US marker is rejected under strict mode with confidence 0;
in particular "Remote", "Multiple Locations", "Global" and "Anywhere" are all
rejected. -/
theorem strict_ambiguous_rejected :
    (∀ t : String, t ≠ "" →
        extract_state_code (pyStrip t) = none →
        pyContains (pyLower (pyStrip t)) "united states" = false →
        pyContains (pyLower (pyStrip t)) "usa" = false →
        pyContains (pyLower (pyStrip t)) "u.s." = false →
        (parse_us_location t true).is_us = false
          ∧ (parse_us_location t true).confidence = 0)
    ∧ ((parse_us_location "Remote" true).is_us = false
        ∧ (parse_us_location "Multiple Locations" true).is_us = false
        ∧ (parse_us_location "Global" true).is_us = false
        ∧ (parse_us_location "Anywhere" true).is_us = false) := by
  constructor
  · intro t ht hsc h1 h2 h3
    rw [parse_no_state t ht hsc true]
    simp [h1, h2, h3]
  · refine ⟨?_, ?_, ?_, ?_⟩ <;> decide

/-- Witness for `strict_ambiguous_rejected` at a concrete ambiguous input. -/
theorem strict_ambiguous_rejected_witness :
    ("Berlin, Germany" : String) ≠ ""
      ∧ (parse_us_location "Berlin, Germany" true).is_us = false
      ∧ (parse_us_location "Berlin, Germany" true).confidence = 0 := by
  refine ⟨by decide, ?_⟩
  have h := strict_ambiguous_rejected.1 "Berlin, Germany" (by decide) (by decide)
    (by decide) (by decide) (by decide)
  exact h

/-- C7: whenever the state-code extractor recognizes a token, strict
classification accepts with confidence 0.9 and that state; concretely,
"San Francisco, CA" and "New York, NY 10001" parse as the spec describes. -/
theorem state_token_accepted :
    (∀ t c : String, t ≠ "" → extract_state_code (pyStrip t) = some c →
        (parse_us_location t true).is_us = true
          ∧ (parse_us_location t true).confidence = conf09
          ∧ (parse_us_location t true).state = some c)
    ∧ parse_us_location "San Francisco, CA" true =
        { city := some "San Francisco", state := some "CA", postal_code := none,
          is_remote := false, is_us := true, confidence := conf09 }
    ∧ parse_us_location "New York, NY 10001" true =
        { city := some "New York", state := some "NY", postal_code := some "10001",
          is_remote := false, is_us := true, confidence := conf09 } := by
  refine ⟨?_, by decide, by decide⟩
  intro t c ht hsc
  have htb : (t == "") = false := by simp [ht]
  rw [parse_us_location, htb]
  simp only [Bool.false_eq_true, if_false, hsc]
  exact ⟨trivial, trivial, trivial⟩

/-- Witness for `state_token_accepted` at a concrete input. -/
theorem state_token_accepted_witness :
    ("Austin, TX" : String) ≠ ""
      ∧ extract_state_code (pyStrip "Austin, TX") = some "TX"
      ∧ (parse_us_location "Austin, TX" true).is_us = true
      ∧ (parse_us_location "Austin, TX" true).confidence = conf09
      ∧ (parse_us_location "Austin, TX" true).state = some "TX" := by
  refine ⟨by decide, by decide, ?_⟩
  have h := state_token_accepted.1 "Austin, TX" "TX" (by decide) (by decide)
  exact ⟨h.1, h.2.1, h.2.2⟩

/-- C10: under non-strict mode every non-empty location string (including
whitespace-only strings) is accepted with confidence 0.9, 0.7 or 0.3 and
passes validation; only empty input yields `is_us = false`. -/
theorem non_strict_accepts_nonempty :
    (∀ t : String, t ≠ "" →
        (parse_us_location t false).is_us = true
          ∧ ((parse_us_location t false).confidence = conf09
              ∨ (parse_us_location t false).confidence = conf07
              ∨ (parse_us_location t false).confidence = conf03)
          ∧ validate_us_location t false = true)
    ∧ (parse_us_location "" false).is_us = false := by
  constructor
  · intro t ht
    have htb : (t == "") = false := by simp [ht]
    have hval : validate_us_location t false = (parse_us_location t false).is_us := by
      rw [validate_us_location]
      simp
    cases hsc : extract_state_code (pyStrip t) with
    | some c =>
        rw [parse_us_location, htb] at hval ⊢
        simp only [Bool.false_eq_true, if_false, hsc] at hval ⊢
        exact ⟨trivial, Or.inl trivial, hval⟩
    | none =>
        rw [parse_no_state t ht hsc false] at hval ⊢
        by_cases hm : (pyContains (pyLower (pyStrip t)) "united states"
            || pyContains (pyLower (pyStrip t)) "usa"
            || pyContains (pyLower (pyStrip t)) "u.s.") = true
        · simp only [hm, if_true] at hval ⊢
          exact ⟨trivial, Or.inr (Or.inl trivial), hval⟩
        · simp only [Bool.not_eq_true] at hm
          simp only [hm, Bool.false_eq_true, if_false] at hval ⊢
          exact ⟨trivial, Or.inr (Or.inr trivial), hval⟩
  · decide

/-- Witness for `non_strict_accepts_nonempty` at a concrete input. -/
theorem non_strict_accepts_nonempty_witness :
    ("Springfield" : String) ≠ ""
      ∧ (parse_us_location "Springfield" false).is_us = true
      ∧ validate_us_location "Springfield" false = true := by
  refine ⟨by decide, ?_⟩
  have h := non_strict_accepts_nonempty.1 "Springfield" (by decide)
  exact ⟨h.1, h.2.2⟩

/-! ## `src/jobintel/utils/text.py` (`clean_text`) -/

/-- One pass of `re.sub(r"<[^>]+>", " ", text)`: each `<`…`>` span with at
least one inner character becomes one space; a `<` with no matching `>` (or
immediately followed by `>`) is kept.  Fuel-based recursion; the fuel is the
text length plus one, and every step consumes at least one character. -/
def stripTagsAux : Nat → List Char → List Char
  | 0, l => l
  | _, [] => []
  | fuel + 1, c :: rest =>
      if c == '<' then
        let inside := rest.takeWhile (fun d => !(d == '>'))
        match rest.dropWhile (fun d => !(d == '>')) with
        | _ :: after =>
            if inside.isEmpty then c :: stripTagsAux fuel rest
            else ' ' :: stripTagsAux fuel after
        | [] => c :: stripTagsAux fuel rest
      else c :: stripTagsAux fuel rest

/-- `str.split()` with no arguments: split on whitespace runs, dropping
empty pieces. -/
def splitWs : Nat → List Char → List (List Char)
  | 0, _ => []
  | fuel + 1, l =>
      let l1 := l.dropWhile isPySpace
      if l1.isEmpty then []
      else (l1.takeWhile (fun c => !isPySpace c))
        :: splitWs fuel (l1.dropWhile (fun c => !isPySpace c))

/-- `normalize_whitespace`: `" ".join(text.split())`. -/
def normalize_whitespace (text : String) : String :=
  if text == "" then ""
  else String.intercalate " "
    ((splitWs (text.data.length + 1) text.data).map (fun w => (⟨w⟩ : String)))

/-- `clean_text`: remove HTML tags, normalize whitespace, optionally
lowercase, strip. -/
def clean_text (text : String) (lowercase : Bool := false) : String :=
  if text == "" then ""
  else
    let t1 : String := ⟨stripTagsAux (text.data.length + 1) text.data⟩
    let t2 := normalize_whitespace t1
    let t3 := if lowercase then pyLower t2 else t2
    pyStrip t3

/-! ## `src/jobintel/pipeline/transform.py` -/

/-- Days per month, with leap years (used to validate the date part of an
ISO string, as `datetime.fromisoformat` does). -/
def daysInMonth (y m : Nat) : Nat :=
  if m == 2 then (if (y % 4 == 0 && !(y % 100 == 0)) || y % 400 == 0 then 29 else 28)
  else if m == 4 || m == 6 || m == 9 || m == 11 then 30 else 31

/-- Numeric value of a digit character. -/
def digitVal (c : Char) : Nat := c.toNat - 48

/-- `_parse_date`, modelled on the `"YYYY-MM-DD[…]"` shape of
`datetime.fromisoformat` input: a falsy or unparseable string degrades to
`none`; a valid date maps to the monotone encoding `y*10000 + m*100 + d`.
The time-of-day component (after `T` or a space) is accepted without
validation; the `replace("Z", "+00:00")` step only affects that component. -/
def _parse_date (date_str : Option String) : Option Nat :=
  match date_str with
  | none => none
  | some s =>
      match s.data with
      | y1 :: y2 :: y3 :: y4 :: h1 :: m1 :: m2 :: h2 :: d1 :: d2 :: rest =>
          if [y1, y2, y3, y4, m1, m2, d1, d2].all Char.isDigit
              && h1 == '-' && h2 == '-'
              && (rest.isEmpty || rest.headD ' ' == 'T' || rest.headD ' ' == ' ') then
            let y := digitVal y1 * 1000 + digitVal y2 * 100 + digitVal y3 * 10 + digitVal y4
            let m := digitVal m1 * 10 + digitVal m2
            let d := digitVal d1 * 10 + digitVal d2
            if 1 ≤ m && m ≤ 12 && 1 ≤ d && d ≤ daysInMonth y m then
              some (y * 10000 + m * 100 + d)
            else none
          else none
      | _ => none

/-- One entry of the Greenhouse `metadata` array (a dict with `name` and
`value` keys, either possibly absent/None). -/
structure MetaItem where
  name : Option String := none
  value : Option String := none
deriving DecidableEq

/-- A raw posting dict.  Fields hold the values the transform would read out
of the dict: `id` is the stringified `"id"` value (`none` when the key is
missing, in which case `raw_job["id"]` raises `KeyError('id')`); string
fields default to the `.get(..., "")` fallback; `locationName` is the
resolved Greenhouse `location.name` (falsy location dicts resolve to `""`);
`catLocation` is the resolved Lever `categories.location` (a None value
resolves to `""` via `or ""`). -/
structure RawJob where
  id : Option String := none
  title : String := ""
  content : String := ""
  description : String := ""
  locationName : String := ""
  absoluteUrl : Option String := none
  metadata : List MetaItem := []
  updatedAt : Option String := none
  text : String := ""
  descriptionPlain : String := ""
  catLocation : String := ""
  hostedUrl : Option String := none
  department : Option String := none
  commitment : Option String := none
  createdAt : Option String := none
deriving DecidableEq

/-- The canonical `JobRecord` of `src/jobintel/schema/models.py`.  Dates are
modelled as `Nat` (see the file header); `date_scraped` holds the modelled
`datetime.now()` timestamp. -/
structure JobRecord where
  source : String
  source_job_id : String
  job_url : String
  company_name : String
  company_domain : Option String := none
  company_id : String
  title : String
  description : String
  department : Option String := none
  employment_type : Option String := none
  seniority : Option String := none
  location_raw : String
  city : Option String := none
  state : Option String := none
  postal_code : Option String := none
  msa : Option String := none
  is_remote : Bool := false
  country : String := "US"
  date_posted : Option Nat := none
  date_scraped : Nat
  role_family : Option String := none
  skills : List String := []
  industry_tag : Option String := none
  run_date : Nat
  job_key : String
deriving DecidableEq

/-- A rejected-posting record as built inline in `transform_to_canonical`;
the transform-error variant carries no `raw_location` key. -/
structure RejectRecord where
  company_name : String
  source : String
  source_job_id : String
  reason : String
  raw_location : Option String := none
deriving DecidableEq

/-- `_find_metadata_value`: value of the first metadata item whose name
matches (returned even when that value is None). -/
def _find_metadata_value (metadata : List MetaItem) (key : String) : Option String :=
  match metadata.find? (fun item => item.name == some key) with
  | some item => item.value
  | none => none

/-- `_extract_job_id`: `str(raw_job.get("id", "unknown"))`. -/
def _extract_job_id (raw : RawJob) : String := raw.id.getD "unknown"

/-- `_extract_location`. -/
def _extract_location (raw : RawJob) (source : String) : String :=
  if source == "greenhouse" then raw.locationName
  else if source == "lever" then raw.catLocation
  else ""

/-- `_transform_greenhouse_job`.  A missing `"id"` key raises
`KeyError('id')`, whose `str(e)` is `'id'` (with quotes); a posting failing
US validation yields `none`. -/
def _transform_greenhouse_job (raw : RawJob) (company_name : String)
    (run_date : Nat) (strict_us : Bool) (now : Nat) :
    Except String (Option JobRecord) :=
  match raw.id with
  | none => .error "'id'"
  | some job_id =>
      let title := raw.title
      let content := if raw.content == "" then raw.description else raw.content
      let location_raw := raw.locationName
      let parsed_loc := parse_us_location location_raw strict_us
      if !parsed_loc.is_us then .ok none
      else
        .ok (some {
          source := "greenhouse"
          source_job_id := job_id
          job_url := raw.absoluteUrl.getD ("https://boards.greenhouse.io/jobs/" ++ job_id)
          company_name := company_name
          company_domain := none
          company_id := generate_company_id company_name none
          title := title
          description := clean_text content
          department := _find_metadata_value raw.metadata "department"
          employment_type := _find_metadata_value raw.metadata "employment_type"
          seniority := none
          location_raw := location_raw
          city := parsed_loc.city
          state := parsed_loc.state
          postal_code := parsed_loc.postal_code
          msa := none
          is_remote := parsed_loc.is_remote
          country := "US"
          date_posted := _parse_date raw.updatedAt
          date_scraped := now
          role_family := none
          skills := []
          industry_tag := none
          run_date := run_date
          job_key := generate_job_key "greenhouse" company_name job_id title })

/-- `_transform_lever_job`. -/
def _transform_lever_job (raw : RawJob) (company_name : String)
    (run_date : Nat) (strict_us : Bool) (now : Nat) :
    Except String (Option JobRecord) :=
  match raw.id with
  | none => .error "'id'"
  | some job_id =>
      let title := raw.text
      let description := if raw.description == "" then raw.descriptionPlain else raw.description
      let location_raw := raw.catLocation
      let parsed_loc := parse_us_location location_raw strict_us
      if !parsed_loc.is_us then .ok none
      else
        .ok (some {
          source := "lever"
          source_job_id := job_id
          job_url := raw.hostedUrl.getD ("https://jobs.lever.co/" ++ job_id)
          company_name := company_name
          company_domain := none
          company_id := generate_company_id company_name none
          title := title
          description := clean_text description
          department := raw.department
          employment_type := raw.commitment
          seniority := none
          location_raw := location_raw
          city := parsed_loc.city
          state := parsed_loc.state
          postal_code := parsed_loc.postal_code
          msa := none
          is_remote := parsed_loc.is_remote
          country := "US"
          date_posted := _parse_date raw.createdAt
          date_scraped := now
          role_family := none
          skills := []
          industry_tag := none
          run_date := run_date
          job_key := generate_job_key "lever" company_name job_id title })

/-- The US-validation reject record built in `transform_to_canonical`. -/
def rejectUS (raw : RawJob) (company_name source : String) : RejectRecord :=
  { company_name := company_name, source := source,
    source_job_id := _extract_job_id raw,
    reason := "Failed US location validation",
    raw_location := some (_extract_location raw source) }

/-- The transform-error reject record built in `transform_to_canonical`. -/
def rejectError (raw : RawJob) (company_name source : String) (e : String) : RejectRecord :=
  { company_name := company_name, source := source,
    source_job_id := _extract_job_id raw,
    reason := "Transform error: " ++ e,
    raw_location := none }

/-- `transform_to_canonical`: per-posting loop.  A per-posting exception is
caught and recorded; an unknown source is logged with a warning and the
posting is skipped (`continue`) with no output at all. -/
def transform_to_canonical (raw_jobs : List RawJob) (company_name source : String)
    (run_date : Nat) (strict_us : Bool) (now : Nat) :
    List JobRecord × List RejectRecord :=
  match raw_jobs with
  | [] => ([], [])
  | raw :: rest =>
      let vr := transform_to_canonical rest company_name source run_date strict_us now
      if source == "greenhouse" then
        match _transform_greenhouse_job raw company_name run_date strict_us now with
        | .ok (some job) => (job :: vr.1, vr.2)
        | .ok none => (vr.1, rejectUS raw company_name source :: vr.2)
        | .error e => (vr.1, rejectError raw company_name source e :: vr.2)
      else if source == "lever" then
        match _transform_lever_job raw company_name run_date strict_us now with
        | .ok (some job) => (job :: vr.1, vr.2)
        | .ok none => (vr.1, rejectUS raw company_name source :: vr.2)
        | .error e => (vr.1, rejectError raw company_name source e :: vr.2)
      else vr

/-- C3 counterexample: an unrecognized schema discriminator does not raise:
the batch completes normally and produces neither canonical jobs nor reject
records for its postings. -/
theorem unknown_source_no_failure_refuted :
    transform_to_canonical
      [{ id := some "1", title := "Engineer", locationName := "San Francisco, CA" }]
      "Acme" "workday" 20250101 true 0 = ([], []) := by
  rfl

/-- C3 (amended): a schema discriminator outside {greenhouse, lever} never
escalates: the transform returns normally, and every posting of the batch is
skipped with only a warning log — no job and no reject record is produced. -/
theorem unknown_source_skipped (raw_jobs : List RawJob) (c src : String)
    (rd : Nat) (strict : Bool) (now : Nat)
    (h1 : src ≠ "greenhouse") (h2 : src ≠ "lever") :
    transform_to_canonical raw_jobs c src rd strict now = ([], []) := by
  induction raw_jobs with
  | nil => rfl
  | cons raw rest ih =>
      have hb1 : (src == "greenhouse") = false := by simp [h1]
      have hb2 : (src == "lever") = false := by simp [h2]
      rw [transform_to_canonical]
      simp only [hb1, hb2, Bool.false_eq_true, if_false, ih]

/-- Witness for `unknown_source_skipped` at a concrete unknown source. -/
theorem unknown_source_skipped_witness :
    ("workday" : String) ≠ "greenhouse" ∧ ("workday" : String) ≠ "lever"
      ∧ transform_to_canonical [{ id := some "7", title := "Analyst" }]
          "Acme" "workday" 3 true 0 = ([], []) :=
  ⟨by decide, by decide,
    unknown_source_skipped [{ id := some "7", title := "Analyst" }]
      "Acme" "workday" 3 true 0 (by decide) (by decide)⟩

/-- Overwrite the scraped timestamp (used to reason about the
`datetime.now()` dependence). -/
def setScraped (t : Nat) (j : JobRecord) : JobRecord := { j with date_scraped := t }

/-- Erase the scraped timestamp. -/
def eraseScraped (j : JobRecord) : JobRecord := { j with date_scraped := 0 }

/-- The Greenhouse transform depends on the clock only through
`date_scraped`. -/
theorem gh_now (raw : RawJob) (c : String) (rd : Nat) (strict : Bool) (t : Nat) :
    _transform_greenhouse_job raw c rd strict t
      = Except.map (Option.map (setScraped t)) (_transform_greenhouse_job raw c rd strict 0) := by
  cases hid : raw.id with
  | none => simp [_transform_greenhouse_job, hid, Except.map]
  | some job_id =>
      simp only [_transform_greenhouse_job, hid]
      by_cases hus : (parse_us_location raw.locationName strict).is_us
      · simp [hus, Except.map, setScraped]
      · simp [hus, Except.map]

/-- The Lever transform depends on the clock only through `date_scraped`. -/
theorem lever_now (raw : RawJob) (c : String) (rd : Nat) (strict : Bool) (t : Nat) :
    _transform_lever_job raw c rd strict t
      = Except.map (Option.map (setScraped t)) (_transform_lever_job raw c rd strict 0) := by
  cases hid : raw.id with
  | none => simp [_transform_lever_job, hid, Except.map]
  | some job_id =>
      simp only [_transform_lever_job, hid]
      by_cases hus : (parse_us_location raw.catLocation strict).is_us
      · simp [hus, Except.map, setScraped]
      · simp [hus, Except.map]

/-- The whole batch transform depends on the clock only through the
`date_scraped` field of the accepted records. -/
theorem transform_now (raws : List RawJob) (c src : String) (rd : Nat)
    (strict : Bool) (t : Nat) :
    transform_to_canonical raws c src rd strict t
      = ((transform_to_canonical raws c src rd strict 0).1.map (setScraped t),
         (transform_to_canonical raws c src rd strict 0).2) := by
  induction raws with
  | nil => rfl
  | cons raw rest ih =>
      rw [transform_to_canonical, transform_to_canonical]
      by_cases hgh : (src == "greenhouse") = true
      · simp only [hgh, if_true]
        rw [gh_now raw c rd strict t]
        cases hinner : _transform_greenhouse_job raw c rd strict 0 with
        | error e => simp [Except.map, ih]
        | ok o =>
            cases o with
            | none => simp [Except.map, ih]
            | some job => simp [Except.map, ih]
      · by_cases hlv : (src == "lever") = true
        · simp only [hgh, hlv, Bool.false_eq_true, if_false, if_true]
          rw [lever_now raw c rd strict t]
          cases hinner : _transform_lever_job raw c rd strict 0 with
          | error e => simp [Except.map, ih]
          | ok o =>
              cases o with
              | none => simp [Except.map, ih]
              | some job => simp [Except.map, ih]
        · simp only [hgh, hlv, Bool.false_eq_true, if_false, ih]

/-- C4 (amended): the canonicalizer is deterministic in its explicit inputs
together with the clock: two invocations on identical inputs agree on every
field of every output except `date_scraped`, which records the invocation
time. -/
theorem canonicalize_deterministic_amended (raws : List RawJob) (c src : String)
    (rd : Nat) (strict : Bool) (t1 t2 : Nat) :
    ((transform_to_canonical raws c src rd strict t1).1.map eraseScraped,
      (transform_to_canonical raws c src rd strict t1).2)
    = ((transform_to_canonical raws c src rd strict t2).1.map eraseScraped,
        (transform_to_canonical raws c src rd strict t2).2) := by
  have hcomp : ∀ t : Nat, eraseScraped ∘ setScraped t = eraseScraped := by
    intro t
    funext j
    rfl
  rw [transform_now raws c src rd strict t1, transform_now raws c src rd strict t2]
  simp [List.map_map, hcomp]

/-- C4 counterexample: called at two different clock instants on the same
input, the canonicalizer produces different records (they differ in
`date_scraped`), so the outputs are not identical field for field. -/
theorem canonicalize_field_determinism_refuted :
    transform_to_canonical
        [{ id := some "1", title := "Engineer", locationName := "San Francisco, CA" }]
        "Acme" "greenhouse" 20250101 true 1
      ≠ transform_to_canonical
          [{ id := some "1", title := "Engineer", locationName := "San Francisco, CA" }]
          "Acme" "greenhouse" 20250101 true 2 := by
  decide

/-- An accepted Greenhouse record satisfies the canonical invariants. -/
theorem gh_ok_invariants (raw : RawJob) (c : String) (rd : Nat) (strict : Bool)
    (t : Nat) (j : JobRecord)
    (h : _transform_greenhouse_job raw c rd strict t = .ok (some j)) :
    j.country = "US" ∧ j.role_family = none ∧ j.skills = [] ∧ j.industry_tag = none
      ∧ (parse_us_location j.location_raw strict).is_us = true := by
  cases hid : raw.id with
  | none => simp [_transform_greenhouse_job, hid] at h
  | some job_id =>
      simp only [_transform_greenhouse_job, hid] at h
      by_cases hus : (parse_us_location raw.locationName strict).is_us
      · simp only [hus, Bool.not_true, Bool.false_eq_true, if_false,
          Except.ok.injEq, Option.some.injEq] at h
        subst h
        exact ⟨rfl, rfl, rfl, rfl, hus⟩
      · simp [hus] at h

/-- An accepted Lever record satisfies the canonical invariants. -/
theorem lever_ok_invariants (raw : RawJob) (c : String) (rd : Nat) (strict : Bool)
    (t : Nat) (j : JobRecord)
    (h : _transform_lever_job raw c rd strict t = .ok (some j)) :
    j.country = "US" ∧ j.role_family = none ∧ j.skills = [] ∧ j.industry_tag = none
      ∧ (parse_us_location j.location_raw strict).is_us = true := by
  cases hid : raw.id with
  | none => simp [_transform_lever_job, hid] at h
  | some job_id =>
      simp only [_transform_lever_job, hid] at h
      by_cases hus : (parse_us_location raw.catLocation strict).is_us
      · simp only [hus, Bool.not_true, Bool.false_eq_true, if_false,
          Except.ok.injEq, Option.some.injEq] at h
        subst h
        exact ⟨rfl, rfl, rfl, rfl, hus⟩
      · simp [hus] at h

/-- C5: every canonical record emitted for a batch has `country = "US"`, has
unset enrichment fields, and its stored raw location passes the US
classifier under the batch's strict flag (a posting failing US validation is
never emitted). -/
theorem canonical_job_invariants (raws : List RawJob) (c src : String) (rd : Nat)
    (strict : Bool) (t : Nat) (j : JobRecord)
    (hj : j ∈ (transform_to_canonical raws c src rd strict t).1) :
    j.country = "US" ∧ j.role_family = none ∧ j.skills = [] ∧ j.industry_tag = none
      ∧ (parse_us_location j.location_raw strict).is_us = true := by
  induction raws with
  | nil => simp [transform_to_canonical] at hj
  | cons raw rest ih =>
      rw [transform_to_canonical] at hj
      by_cases hgh : (src == "greenhouse") = true
      · simp only [hgh, if_true] at hj
        cases hinner : _transform_greenhouse_job raw c rd strict t with
        | error e => rw [hinner] at hj; exact ih hj
        | ok o =>
            cases o with
            | none => rw [hinner] at hj; exact ih hj
            | some job =>
                rw [hinner] at hj
                rcases List.mem_cons.mp hj with hje | hjm
                · subst hje
                  exact gh_ok_invariants raw c rd strict t j hinner
                · exact ih hjm
      · by_cases hlv : (src == "lever") = true
        · simp only [hgh, hlv, Bool.false_eq_true, if_false, if_true] at hj
          cases hinner : _transform_lever_job raw c rd strict t with
          | error e => rw [hinner] at hj; exact ih hj
          | ok o =>
              cases o with
              | none => rw [hinner] at hj; exact ih hj
              | some job =>
                  rw [hinner] at hj
                  rcases List.mem_cons.mp hj with hje | hjm
                  · subst hje
                    exact lever_ok_invariants raw c rd strict t j hinner
                  · exact ih hjm
        · simp only [hgh, hlv, Bool.false_eq_true, if_false] at hj
          exact ih hj

/-- A concrete accepted raw posting. -/
def rawW : RawJob := { id := some "1", title := "Engineer", locationName := "San Francisco, CA" }

/-- A throwaway default record for `List.getD`. -/
def dfltJob : JobRecord :=
  { source := "", source_job_id := "", job_url := "", company_name := "",
    company_id := "", title := "", description := "", location_raw := "",
    date_scraped := 0, run_date := 0, job_key := "" }

/-- The first record the canonicalizer emits on the concrete batch. -/
def jW : JobRecord :=
  (transform_to_canonical [rawW] "Acme" "greenhouse" 1 true 5).1.getD 0 dfltJob

/-- Witness for `canonical_job_invariants` at a concrete accepted posting. -/
theorem canonical_job_invariants_witness :
    jW ∈ (transform_to_canonical [rawW] "Acme" "greenhouse" 1 true 5).1
      ∧ (jW.country = "US" ∧ jW.role_family = none ∧ jW.skills = []
          ∧ jW.industry_tag = none
          ∧ (parse_us_location jW.location_raw true).is_us = true) :=
  have hm : jW ∈ (transform_to_canonical [rawW] "Acme" "greenhouse" 1 true 5).1 := by
    decide
  ⟨hm, canonical_job_invariants [rawW] "Acme" "greenhouse" 1 true 5 jW hm⟩

/-- C8: with a recognized source, every posting of a batch yields exactly one
outcome (accepted or rejected), so a batch of `n` postings never aborts; and
when per-posting extraction raises, the posting is recorded as a
RejectRecord whose reason is `"Transform error: <detail>"` while the rest of
the batch is still processed. -/
theorem transform_error_containment :
    (∀ (raws : List RawJob) (c src : String) (rd : Nat) (strict : Bool) (t : Nat),
        src = "greenhouse" ∨ src = "lever" →
        (transform_to_canonical raws c src rd strict t).1.length
          + (transform_to_canonical raws c src rd strict t).2.length = raws.length)
    ∧ (∀ (raw : RawJob) (rest : List RawJob) (c : String) (rd : Nat)
          (strict : Bool) (t : Nat) (e : String),
        _transform_greenhouse_job raw c rd strict t = .error e →
        transform_to_canonical (raw :: rest) c "greenhouse" rd strict t
          = ((transform_to_canonical rest c "greenhouse" rd strict t).1,
             { company_name := c, source := "greenhouse",
               source_job_id := raw.id.getD "unknown",
               reason := "Transform error: " ++ e, raw_location := none }
               :: (transform_to_canonical rest c "greenhouse" rd strict t).2))
    ∧ (∀ (raw : RawJob) (rest : List RawJob) (c : String) (rd : Nat)
          (strict : Bool) (t : Nat) (e : String),
        _transform_lever_job raw c rd strict t = .error e →
        transform_to_canonical (raw :: rest) c "lever" rd strict t
          = ((transform_to_canonical rest c "lever" rd strict t).1,
             { company_name := c, source := "lever",
               source_job_id := raw.id.getD "unknown",
               reason := "Transform error: " ++ e, raw_location := none }
               :: (transform_to_canonical rest c "lever" rd strict t).2)) := by
  refine ⟨?_, ?_, ?_⟩
  · intro raws c src rd strict t hsrc
    induction raws with
    | nil => rfl
    | cons raw rest ih =>
        rw [transform_to_canonical]
        rcases hsrc with h | h <;> subst h
        · cases hinner : _transform_greenhouse_job raw c rd strict t with
          | error e => simp only [hinner]; simp; omega
          | ok o =>
              cases o with
              | none => simp only [hinner]; simp; omega
              | some job => simp only [hinner]; simp; omega
        · cases hinner : _transform_lever_job raw c rd strict t with
          | error e => simp only [hinner]; simp; omega
          | ok o =>
              cases o with
              | none => simp only [hinner]; simp; omega
              | some job => simp only [hinner]; simp; omega
  · intro raw rest c rd strict t e he
    rw [transform_to_canonical]
    simp only [he]
    simp [rejectError, _extract_job_id]
  · intro raw rest c rd strict t e he
    rw [transform_to_canonical]
    simp only [he]
    simp [rejectError, _extract_job_id]

/-- Witness for `transform_error_containment` at a posting with a missing
required id. -/
theorem transform_error_containment_witness :
    _transform_greenhouse_job { id := none } "Acme" 1 true 0 = Except.error "'id'"
      ∧ transform_to_canonical [{ id := none }] "Acme" "greenhouse" 1 true 0
          = ([], [{ company_name := "Acme", source := "greenhouse",
                    source_job_id := "unknown",
                    reason := "Transform error: 'id'", raw_location := none }])
      ∧ ("greenhouse" = "greenhouse" ∨ ("greenhouse" : String) = "lever")
      ∧ (transform_to_canonical [{ id := none }] "Acme" "greenhouse" 1 true 0).1.length
          + (transform_to_canonical [{ id := none }] "Acme" "greenhouse" 1 true 0).2.length
          = 1 :=
  have he : _transform_greenhouse_job { id := none } "Acme" 1 true 0 = Except.error "'id'" := by
    rfl
  have h2 := transform_error_containment.2.1 { id := none } [] "Acme" 1 true 0 "'id'" he
  have h1 := transform_error_containment.1 [{ id := none }] "Acme" "greenhouse" 1 true 0
    (Or.inl rfl)
  ⟨he, by rw [h2]; rfl, Or.inl rfl, h1⟩

/-! ## `src/jobintel/pipeline/dedupe.py` -/

/-- Keep-first deduplication by `job_key` with an accumulator of keys already
seen.  This is the observable behaviour of
`df.drop_duplicates(subset=["job_key"], keep="first")` followed by the
DataFrame→`JobRecord` round-trip (`model_dump`/constructor, the identity on
record contents): the first row per key survives, in original order. -/
def dedupeAux (seen : List String) : List JobRecord → List JobRecord
  | [] => []
  | j :: rest =>
      if j.job_key ∈ seen then dedupeAux seen rest
      else j :: dedupeAux (j.job_key :: seen) rest

/-- `deduplicate_jobs` (the `if not jobs: return []` fast path coincides with
the general case). -/
def deduplicate_jobs (jobs : List JobRecord) : List JobRecord :=
  dedupeAux [] jobs

/-- Key idempotence lemma, generalized over the seen-set accumulator. -/
theorem dedupeAux_idem (seen : List String) (l : List JobRecord) :
    dedupeAux seen (dedupeAux seen l) = dedupeAux seen l := by
  induction l generalizing seen with
  | nil => rfl
  | cons j rest ih =>
      by_cases h : j.job_key ∈ seen
      · rw [dedupeAux, if_pos h, ih]
      · rw [dedupeAux, if_neg h, dedupeAux, if_neg h, ih]

/-- C9: the within-run deduplicator is idempotent. -/
theorem dedupe_idempotent (X : List JobRecord) :
    deduplicate_jobs (deduplicate_jobs X) = deduplicate_jobs X :=
  dedupeAux_idem [] X

/-! ## `src/jobintel/pipeline/latest.py` -/

/-- Recency order on records: comparison of `run_date` (the
`pd.to_datetime`-converted run dates compare exactly as the underlying
calendar dates, i.e. as their monotone `Nat` encoding). -/
def runDateLE (a b : JobRecord) : Prop := a.run_date ≤ b.run_date

instance : DecidableRel runDateLE := fun a b => Nat.decLe a.run_date b.run_date

instance : IsTotal JobRecord runDateLE := ⟨fun a b => Nat.le_total a.run_date b.run_date⟩

instance : IsTrans JobRecord runDateLE := ⟨fun _ _ _ => Nat.le_trans⟩

/-- `df.sort_values("run_date_dt", ascending=False)`: pandas computes an
ascending argsort of the column with the default `kind='quicksort'` (numpy
introsort) and reverses the resulting indexer, so the program guarantees a
descending permutation of the rows but NO particular order among rows with
equal `run_date` (introsort is unstable beyond its small-array insertion-sort
regime).  The model fixes one concrete representative — the reverse of a
stable ascending sort, which is numpy's actual behaviour in the insertion-sort
regime covering the concrete corpora evaluated here; the claim theorem below
is stated over EVERY descending-sorted permutation, so it relies on nothing
beyond what the program guarantees. -/
def sortDescByRunDate (jobs : List JobRecord) : List JobRecord :=
  (List.insertionSort runDateLE jobs).reverse

/-- The in-memory core of `build_latest_snapshot`: sort the full corpus by
`run_date` descending, then keep the first occurrence of each `job_key`
(`drop_duplicates(subset=["job_key"], keep="first")`). -/
def build_latest (jobs : List JobRecord) : List JobRecord :=
  dedupeAux [] (sortDescByRunDate jobs)

/-- The deduplicated list is a sublist of the input. -/
theorem dedupeAux_sublist (seen : List String) (l : List JobRecord) :
    List.Sublist (dedupeAux seen l) l := by
  induction l generalizing seen with
  | nil => exact List.Sublist.refl _
  | cons j rest ih =>
      by_cases h : j.job_key ∈ seen
      · rw [dedupeAux, if_pos h]
        exact (ih seen).trans (List.sublist_cons_self j rest)
      · rw [dedupeAux, if_neg h]
        exact List.Sublist.cons₂ j (ih (j.job_key :: seen))

/-- Keys of the deduplicated list avoid the seen set and are distinct. -/
theorem dedupeAux_keys (seen : List String) (l : List JobRecord) :
    (∀ j ∈ dedupeAux seen l, j.job_key ∉ seen)
      ∧ ((dedupeAux seen l).map (fun j => j.job_key)).Nodup := by
  induction l generalizing seen with
  | nil => exact ⟨fun j hj => absurd hj (List.not_mem_nil j), List.nodup_nil⟩
  | cons j rest ih =>
      by_cases h : j.job_key ∈ seen
      · rw [dedupeAux, if_pos h]
        exact ih seen
      · rw [dedupeAux, if_neg h]
        obtain ⟨hnot, hnd⟩ := ih (j.job_key :: seen)
        constructor
        · intro x hx
          rcases List.mem_cons.mp hx with hxe | hxm
          · subst hxe; exact h
          · intro hxs
            exact (hnot x hxm) (List.mem_cons_of_mem _ hxs)
        · rw [List.map_cons, List.nodup_cons]
          constructor
          · intro hmem
            obtain ⟨y, hy, hyk⟩ := List.mem_map.mp hmem
            exact (hnot y hy) (by rw [hyk]; exact List.mem_cons_self _ _)
          · exact hnd

/-- Key coverage of the deduplicated list. -/
theorem dedupeAux_mem_keys (seen : List String) (l : List JobRecord) (k : String) :
    k ∈ (dedupeAux seen l).map (fun j => j.job_key)
      ↔ (k ∈ l.map (fun j => j.job_key) ∧ k ∉ seen) := by
  induction l generalizing seen with
  | nil => simp [dedupeAux]
  | cons j rest ih =>
      rw [List.map_cons, List.mem_cons]
      by_cases h : j.job_key ∈ seen
      · rw [dedupeAux, if_pos h, ih seen]
        constructor
        · rintro ⟨hm, hs⟩
          exact ⟨Or.inr hm, hs⟩
        · rintro ⟨hm | hm, hs⟩
          · exact absurd (hm ▸ h) hs
          · exact ⟨hm, hs⟩
      · rw [dedupeAux, if_neg h, List.map_cons, List.mem_cons,
          ih (j.job_key :: seen)]
        constructor
        · rintro (he | ⟨hm, hs⟩)
          · refine ⟨Or.inl he, ?_⟩
            rw [he]; exact h
          · exact ⟨Or.inr hm, fun hk => hs (List.mem_cons_of_mem _ hk)⟩
        · rintro ⟨he | hm, hs⟩
          · exact Or.inl he
          · by_cases hk : k = j.job_key
            · exact Or.inl hk
            · exact Or.inr ⟨hm, fun hin => (List.mem_cons.mp hin).elim hk hs⟩

/-- Every survivor of keep-first deduplication is the first record of the
input carrying its key. -/
theorem dedupeAux_find? (seen : List String) (l : List JobRecord) (j : JobRecord)
    (hj : j ∈ dedupeAux seen l) :
    j.job_key ∉ seen ∧ l.find? (fun x => x.job_key == j.job_key) = some j := by
  induction l generalizing seen with
  | nil => cases hj
  | cons c rest ih =>
      by_cases h : c.job_key ∈ seen
      · rw [dedupeAux, if_pos h] at hj
        obtain ⟨hns, hfind⟩ := ih seen hj
        have hne : (c.job_key == j.job_key) = false := by
          simp only [beq_eq_false_iff_ne, ne_eq]
          intro hkeq
          exact hns (hkeq ▸ h)
        rw [List.find?_cons, hne]
        exact ⟨hns, hfind⟩
      · rw [dedupeAux, if_neg h] at hj
        rcases List.mem_cons.mp hj with he | hm
        · subst he
          rw [List.find?_cons]
          simp
          exact h
        · obtain ⟨hns, hfind⟩ := ih (c.job_key :: seen) hm
          have hnsj : j.job_key ∉ seen := fun hx => hns (List.mem_cons_of_mem _ hx)
          have hne : (c.job_key == j.job_key) = false := by
            simp only [beq_eq_false_iff_ne, ne_eq]
            intro hkeq
            exact hns (hkeq ▸ List.mem_cons_self _ _)
          rw [List.find?_cons, hne]
          exact ⟨hnsj, hfind⟩

/-- `find?` returns the head of the filtered list. -/
theorem find?_eq_head?_filter (p : α → Bool) (l : List α) :
    l.find? p = (l.filter p).head? := by
  induction l with
  | cons c rest ih =>
      by_cases h : p c
      · rw [List.find?_cons, h, List.filter_cons, if_pos h, List.head?_cons]
      · rw [List.find?_cons]
        simp only [h, Bool.false_eq_true, if_false]
        rw [List.filter_cons, if_neg h, ih]
  | nil => rfl

/-- The reversed (descending) recency order. -/
def runDateGE (a b : JobRecord) : Prop := b.run_date ≤ a.run_date

instance : DecidableRel runDateGE := fun a b => Nat.decLe b.run_date a.run_date

/-- In a descending-sorted list, the head bounds every element's run date. -/
theorem sorted_ge_head (l : List JobRecord) (hs : l.Sorted runDateGE)
    (m : JobRecord) (hm : l.head? = some m) :
    ∀ x ∈ l, x.run_date ≤ m.run_date := by
  cases l with
  | nil => cases hm
  | cons a t =>
      rw [List.head?_cons, Option.some.injEq] at hm
      subst hm
      intro x hx
      rcases List.mem_cons.mp hx with rfl | hx'
      · exact Nat.le_refl _
      · exact List.rel_of_sorted_cons hs x hx'

/-- C1 (amended): for EVERY descending-by-`runDate` permutation of the
historical corpus (the program fixes no particular order among tied rows),
keep-first deduplication returns exactly one record per distinct `jobKey`,
namely a record of the corpus carrying the maximal `runDate` for its key;
which record is returned among several sharing both `jobKey` and `runDate`
is not guaranteed — at the counterexample it is the last in input order, not
the first — and the concrete model `build_latest` is one such sort, so the
same guarantees hold of it. -/
theorem build_latest_amended_spec :
    (∀ (jobs sorted : List JobRecord), List.Perm sorted jobs →
        sorted.Sorted runDateGE →
        ((dedupeAux [] sorted).map (fun j => j.job_key)).Nodup
        ∧ (∀ k : String, k ∈ (dedupeAux [] sorted).map (fun j => j.job_key)
            ↔ k ∈ jobs.map (fun j => j.job_key))
        ∧ (∀ j ∈ dedupeAux [] sorted,
            j ∈ jobs ∧ ∀ j' ∈ jobs, j'.job_key = j.job_key →
              j'.run_date ≤ j.run_date))
    ∧ (∀ jobs : List JobRecord,
        List.Perm (sortDescByRunDate jobs) jobs
        ∧ (sortDescByRunDate jobs).Sorted runDateGE)
    ∧ (∀ jobs : List JobRecord,
        ((build_latest jobs).map (fun j => j.job_key)).Nodup
        ∧ (∀ k : String, k ∈ (build_latest jobs).map (fun j => j.job_key)
            ↔ k ∈ jobs.map (fun j => j.job_key))
        ∧ (∀ j ∈ build_latest jobs,
            j ∈ jobs ∧ ∀ j' ∈ jobs, j'.job_key = j.job_key →
              j'.run_date ≤ j.run_date)) := by
  have hgen : ∀ (jobs sorted : List JobRecord), List.Perm sorted jobs →
      sorted.Sorted runDateGE →
      ((dedupeAux [] sorted).map (fun j => j.job_key)).Nodup
      ∧ (∀ k : String, k ∈ (dedupeAux [] sorted).map (fun j => j.job_key)
          ↔ k ∈ jobs.map (fun j => j.job_key))
      ∧ (∀ j ∈ dedupeAux [] sorted,
          j ∈ jobs ∧ ∀ j' ∈ jobs, j'.job_key = j.job_key →
            j'.run_date ≤ j.run_date) := by
    intro jobs sorted hperm hsort
    refine ⟨(dedupeAux_keys [] sorted).2, ?_, ?_⟩
    · intro k
      rw [dedupeAux_mem_keys]
      simp only [List.not_mem_nil, not_false_eq_true, and_true]
      exact (hperm.map (fun j => j.job_key)).mem_iff
    · intro j hj
      obtain ⟨-, hfind⟩ := dedupeAux_find? [] sorted j hj
      have hhead : (sorted.filter (fun x => x.job_key == j.job_key)).head?
          = some j := by
        rw [← find?_eq_head?_filter]
        exact hfind
      have hjs : j ∈ sorted := List.mem_of_find?_eq_some hfind
      refine ⟨hperm.mem_iff.mp hjs, ?_⟩
      intro j' hj' hk
      have hmem : j' ∈ sorted.filter (fun x => x.job_key == j.job_key) := by
        rw [List.mem_filter]
        exact ⟨hperm.mem_iff.mpr hj', by simp [hk]⟩
      exact sorted_ge_head _ (hsort.filter _) j hhead j' hmem
  have hmodel : ∀ jobs : List JobRecord,
      List.Perm (sortDescByRunDate jobs) jobs
      ∧ (sortDescByRunDate jobs).Sorted runDateGE := by
    intro jobs
    constructor
    · exact (List.reverse_perm _).trans (List.perm_insertionSort runDateLE jobs)
    · rw [sortDescByRunDate, List.Sorted, List.pairwise_reverse]
      exact List.sorted_insertionSort runDateLE jobs
  refine ⟨hgen, hmodel, ?_⟩
  intro jobs
  exact hgen jobs (sortDescByRunDate jobs) (hmodel jobs).1 (hmodel jobs).2

/-- A concrete record for the snapshot tie-break analysis. -/
def cxJob1 : JobRecord :=
  { source := "greenhouse", source_job_id := "1", job_url := "u1",
    company_name := "Acme", company_id := "c1", title := "Engineer",
    description := "d", location_raw := "San Francisco, CA",
    date_scraped := 0, run_date := 20250101, job_key := "k1" }

/-- A second record sharing `job_key` and `run_date` with `cxJob1`. -/
def cxJob2 : JobRecord := { cxJob1 with source_job_id := "2", job_url := "u2" }

/-- C1 counterexample: on two distinct records sharing `jobKey` and
`runDate`, `build_latest` returns the SECOND one in input order (at this
size the pandas sort is in numpy's stable insertion-sort regime and the
descending indexer reverses the tie), so the claimed first-wins tie-break
does not hold. -/
theorem build_latest_first_wins_refuted :
    build_latest [cxJob1, cxJob2] = [cxJob2] ∧ cxJob1 ≠ cxJob2 := by
  constructor
  · decide
  · decide

/-- Witness for `build_latest_amended_spec` at the concrete tied corpus. -/
theorem build_latest_amended_spec_witness :
    cxJob2 ∈ build_latest [cxJob1, cxJob2]
      ∧ cxJob2 ∈ [cxJob1, cxJob2]
      ∧ (∀ j' ∈ [cxJob1, cxJob2], j'.job_key = cxJob2.job_key →
          j'.run_date ≤ cxJob2.run_date) :=
  have hm : cxJob2 ∈ build_latest [cxJob1, cxJob2] := by decide
  have h := (build_latest_amended_spec.2.2 [cxJob1, cxJob2]).2.2 cxJob2 hm
  ⟨hm, h.1, h.2⟩
